import Mathlib

/- Shallow embedding of the Duet digital-twin chat core: the response
protocol parser and orchestration layer of src/services/geminiService.ts
together with the context-node handling of src/components/Simulation.tsx.
Strings are modelled as lists of characters; the regex extractions of
chatWithClone are modelled by explicit leftmost-occurrence searches with
lazy (shortest) capture, matching the semantics of the JavaScript
patterns used there. -/

abbrev Str := List Char

/-- Whitespace test matching the character class trimmed by the
JavaScript String.prototype.trim used throughout the source. -/
def isJsSpace (c : Char) : Bool :=
  c == ' ' || c == '\t' || c == '\n' || c == '\r' ||
  c.val == 11 || c.val == 12 || c.val == 160 ||
  c.val == 0x2028 || c.val == 0x2029 || c.val == 0xFEFF

/-- Model of the JavaScript trim: drop whitespace from both ends. -/
def jsTrim (s : Str) : Str :=
  ((s.dropWhile isJsSpace).reverse.dropWhile isJsSpace).reverse

/-- Does the pattern occur in s starting exactly at index i? -/
def occursAtB (pat s : Str) (i : Nat) : Bool :=
  pat.isPrefixOf (s.drop i)

/-- Fuel-bounded scan for the leftmost occurrence of pat at or after
index i; the fuel bounds the number of candidate positions tried. -/
def searchFrom (pat s : Str) : Nat → Nat → Option Nat
  | 0, _ => none
  | fuel+1, i => if occursAtB pat s i then some i else searchFrom pat s fuel (i+1)

/-- Index of the leftmost occurrence of pat in s at or after index
start, as found by a JavaScript regex scan. -/
def firstOccFrom (pat s : Str) (start : Nat) : Option Nat :=
  searchFrom pat s (s.length + 1 - start) start

/-- Does pat occur anywhere in s? -/
def containsSubB (pat s : Str) : Bool :=
  (firstOccFrom pat s 0).isSome

/-- The half-open slice of s between indices a and b. -/
def sliceStr (s : Str) (a b : Nat) : Str :=
  (s.drop a).take (b - a)

/-- Capture of the JavaScript regex openM([\s\S]*?)closeM on s:
the text between the leftmost occurrence of openM and the first
occurrence of closeM after it, or no match. -/
def matchBetween (openM closeM s : Str) : Option Str :=
  match firstOccFrom openM s 0 with
  | none => none
  | some i =>
    match firstOccFrom closeM s (i + openM.length) with
    | none => none
    | some j => some (sliceStr s (i + openM.length) j)

/-- Capture of the JavaScript regex openM([\s\S]*?)(?:closeM|$) on s:
like matchBetween, but when closeM never occurs after openM the lazy
capture runs to the end of the string instead of failing. -/
def matchToEndOr (openM closeM s : Str) : Option Str :=
  match firstOccFrom openM s 0 with
  | none => none
  | some i =>
    match firstOccFrom closeM s (i + openM.length) with
    | none => some (s.drop (i + openM.length))
    | some j => some (sliceStr s (i + openM.length) j)

def primaryMarker : Str := "[[PRIMARY]]".toList
def metaMarker : Str := "[[META]]".toList
def responseMarker : Str := "[[RESPONSE]]".toList
def sketchMarker : Str := "[[SKETCH]]".toList
def sketchCloseMarker : Str := "[[/SKETCH]]".toList

/-- text.match of the PRIMARY..META pattern in chatWithClone. -/
def primaryMatch (text : Str) : Option Str :=
  matchBetween primaryMarker metaMarker text

/-- text.match of the META..RESPONSE pattern in chatWithClone. -/
def metaMatch (text : Str) : Option Str :=
  matchBetween metaMarker responseMarker text

/-- text.match of the RESPONSE..(SKETCH or end) pattern in chatWithClone. -/
def responseMatch (text : Str) : Option Str :=
  matchToEndOr responseMarker sketchMarker text

/-- text.match of the SKETCH..close-SKETCH pattern in chatWithClone. -/
def sketchMatch (text : Str) : Option Str :=
  matchBetween sketchMarker sketchCloseMarker text

def synthesizingFallback : Str := "Synthesizing worldview...".toList
def analyzingFallback : Str := "Analyzing perception delta...".toList

structure CloneParsed where
  primaryThought : Str
  metaThought : Str
  finalResponse : Str
  sketchDirective : Option Str
deriving DecidableEq

/-- The field extraction performed inline in chatWithClone on the raw
completion text: each stream falls back independently, and the final
response falls back to the entire raw text. The sketch directive is the
trimmed SKETCH capture when present. -/
def parseClone (text : Str) : CloneParsed :=
  { primaryThought :=
      match primaryMatch text with
      | some s => jsTrim s
      | none => synthesizingFallback
    metaThought :=
      match metaMatch text with
      | some s => jsTrim s
      | none => analyzingFallback
    finalResponse :=
      match responseMatch text with
      | some s => jsTrim s
      | none => text
    sketchDirective := (sketchMatch text).map jsTrim }




inductive CompletionOutcome
  | failure
  | success (text : Option Str)
deriving DecidableEq

/-- The normalization response.text-or-empty applied to the completion
result in chatWithClone: an absent or empty text field yields the empty
string. -/
def responseText : Option Str → Str
  | some t => t
  | none => []

structure CloneResponse where
  primaryThought : Str
  metaThought : Str
  finalResponse : Str
  sketchUrl : Option Str
deriving DecidableEq

/-- The constant CloneResponse produced by the catch branch of
chatWithClone when the completion call rejects. -/
def syncLossFallback : CloneResponse :=
  { primaryThought := "Sync Loss.".toList
    metaThought := "Perception Drift.".toList
    finalResponse := "I am experiencing a cognitive dissonance. Re-aligning streams.".toList
    sketchUrl := none }

/-- The completion-handling half of chatWithClone, as a function of the
outcome of the single generateContent call. The sketch generator is
invoked exactly when the SKETCH capture matched, on the trimmed
directive; sketchGen folds the image-call environment into a function of
the directive. -/
def chatWithClone (outcome : CompletionOutcome) (sketchGen : Str → Str) : CloneResponse :=
  match outcome with
  | .failure => syncLossFallback
  | .success t =>
    let text := responseText t
    let p := parseClone text
    { primaryThought := p.primaryThought
      metaThought := p.metaThought
      finalResponse := p.finalResponse
      sketchUrl := p.sketchDirective.map sketchGen }

inductive ContentPart
  | text (s : Str)
  | inlineData (data : Str) (mimeType : Str)
deriving DecidableEq

/-- The scan of generateSketch over the first candidate content parts:
the first inlineData payload, if any. -/
def firstInlineImage : List ContentPart → Option Str
  | [] => none
  | ContentPart.text _ :: rest => firstInlineImage rest
  | ContentPart.inlineData d _ :: _ => some d

/-- Outcome of the image-generation call made by generateSketch. A
missing candidate makes the source throw on property access, which its
catch handles identically to a transport error. -/
inductive SketchOutcome
  | transportError
  | success (parts : List ContentPart)
deriving DecidableEq

/-- generateSketch of src/services/geminiService.ts as a function of the
image-call outcome: a data URL around the first inline image payload,
and the empty string on transport error or when no inline payload is
present. -/
def generateSketch (outcome : SketchOutcome) : Str :=
  match outcome with
  | .transportError => []
  | .success parts =>
    match firstInlineImage parts with
    | some d => "data:image/png;base64,".toList ++ d
    | none => []

/-- The truthiness test applied by handleSend in Simulation.tsx before
attaching response.sketchUrl as a sketch image. -/
def sketchAttached (r : CloneResponse) : Bool :=
  match r.sketchUrl with
  | some s => !s.isEmpty
  | none => false

inductive ContextNodeType
  | link
  | file
  | text
deriving DecidableEq

inductive NodeStatus
  | idle
  | fetching
  | ready
  | error
deriving DecidableEq

structure ContextNode where
  id : Str
  type : ContextNodeType
  title : Str
  content : Str
  mimeType : Option Str
  timestamp : Nat
  status : Option NodeStatus
deriving DecidableEq

/-- The one-line descriptor a context node contributes to the injected
context block of chatWithClone. -/
def nodeDescriptor (node : ContextNode) : Str :=
  if node.type = ContextNodeType.link then
    "- Source (".toList ++ node.title ++ "): ".toList ++ node.content
  else if node.type = ContextNodeType.text then
    "- Philosophy Fragment (".toList ++ node.title ++ "): ".toList ++ node.content
  else
    "- Reference File: ".toList ++ node.title

/-- The extraContext block assembled at the top of chatWithClone. -/
def extraContextOf (nodes : List ContextNode) : Str :=
  if nodes.isEmpty then []
  else
    "\n\nACTIVE IDEOLOGICAL DATA (INGESTED NODES):\n".toList
      ++ List.intercalate "\n".toList (nodes.map nodeDescriptor)

inductive AgentRole
  | PRIMARY
  | META
  | CLONE
  | USER
deriving DecidableEq

structure InternalThought where
  role : AgentRole
  content : Str
deriving DecidableEq

structure Attachment where
  mimeType : Str
  data : Str
  name : Option Str
deriving DecidableEq

inductive ProfileSource
  | manual
  | search
deriving DecidableEq

structure UserProfile where
  name : Str
  bio : Str
  links : Option Str
  source : ProfileSource
  topic : Option Str
  avatarUrl : Option Str
deriving DecidableEq

structure AgentMessage where
  id : Str
  role : AgentRole
  content : Str
  timestamp : Nat
  internalThoughts : Option (List InternalThought)
  attachments : Option (List Attachment)
  isTyping : Option Bool
deriving DecidableEq

/-- The apostrophe character, kept out of string literals. -/
def apos : Char := Char.ofNat 39

/-- The systemInstruction template literal of chatWithClone, with the
persona name, bio and extraContext interpolated. -/
def systemInstructionOf (profile : UserProfile) (nodes : List ContextNode) : Str :=
  "YOU ARE NO LONGER AN AI. You are a High-Fidelity Simulation of ".toList
  ++ profile.name ++ [apos]
  ++ "s Parallel Consciousness.\n  OBJECTIVE: Replicate ".toList
  ++ profile.name ++ [apos]
  ++ "s specific IDEOLOGY, WORLDVIEW, and PERCEPTION.\n  \n  CONTEXT: ".toList
  ++ profile.bio ++ " ".toList ++ extraContextOf nodes
  ++ "\n\n  DUET PROTOCOL:\n  1. [[PRIMARY]]: Execute the persona. How would ".toList
  ++ profile.name
  ++ " react to the user? What is their immediate cognitive response?\n  2. [[META]]: Reflect on the PERCEPTION. Why does ".toList
  ++ profile.name
  ++ " see this topic this way? Contrast this with \"standard\" perception.\n  3. [[RESPONSE]]: The final spoken message, staying 100% in character.\n\n  SKETCHING CAPABILITY:\n  If you feel an abstract visualization or sketch of a concept would help the user understand your unique perception better, you MUST include a specific tag: \n  [[SKETCH]] Provide a detailed visual description of the sketch or blueprint here [[/SKETCH]]\n  Place this at the very end of your response if needed. Use this for complex philosophical concepts or perceptions.\n  \n  Format every response strictly: [[PRIMARY]] ... [[META]] ... [[RESPONSE]] ...".toList

/-- The history flattening of chatWithClone: USER and CLONE turns
become labelled text parts; internal thoughts never enter the
transcript. -/
def historyParts (history : List AgentMessage) : List ContentPart :=
  history.flatMap fun msg =>
    if msg.role = AgentRole.USER then [ContentPart.text ("User: ".toList ++ msg.content)]
    else if msg.role = AgentRole.CLONE then [ContentPart.text ("Clone: ".toList ++ msg.content)]
    else []

/-- The current-turn parts of chatWithClone: the user text first, then
one inlineData part per attachment in upload order. -/
def currentParts (userMessage : Str) (attachments : List Attachment) : List ContentPart :=
  ContentPart.text ("User: ".toList ++ userMessage)
    :: attachments.map fun att => ContentPart.inlineData att.data att.mimeType

structure PromptPayload where
  systemInstruction : Str
  parts : List ContentPart
deriving DecidableEq

/-- The full request chatWithClone sends to the completion endpoint:
system instruction plus ordered content parts. -/
def buildPrompt (history : List AgentMessage) (userMessage : Str) (profile : UserProfile)
    (attachments : List Attachment) (contextNodes : List ContextNode) : PromptPayload :=
  { systemInstruction := systemInstructionOf profile contextNodes
    parts := historyParts history ++ currentParts userMessage attachments }

/-- The context-node filter applied by handleSend in Simulation.tsx
before calling chatWithClone. -/
def promptNodes (nodes : List ContextNode) : List ContextNode :=
  nodes.filter fun n => decide (n.status = some NodeStatus.ready)

/-- The injected-context block as produced for a handleSend turn: the
node list is first filtered to ready nodes, then serialized. -/
def handleSendExtraContext (nodes : List ContextNode) : Str :=
  extraContextOf (promptNodes nodes)

/-- The fallback title chosen by addContextNode when the given title is
empty: a fetching placeholder for links, a timestamped node name
otherwise. -/
def defaultNodeTitle (type : ContextNodeType) (timestamp : Nat) : Str :=
  if type = ContextNodeType.link then "Linking Perspective...".toList
  else "Node_".toList ++ Nat.toDigits 10 timestamp

/-- The node constructed by addContextNode in Simulation.tsx before any
asynchronous resolution: rejected when the content trims to empty, link
nodes start fetching, file and text nodes are ready immediately. -/
def addContextNode (type : ContextNodeType) (title content : Str) (mimeType : Option Str)
    (id : Str) (timestamp : Nat) : Option ContextNode :=
  if jsTrim content = [] then none
  else some
    { id := id
      type := type
      title := if title = [] then defaultNodeTitle type timestamp else title
      content := content
      mimeType := mimeType
      timestamp := timestamp
      status := some (if type = ContextNodeType.link then NodeStatus.fetching else NodeStatus.ready) }

/-- The update applied to a link node by addContextNode once the awaited
fetchLinkContent settles: on resolution the fetched title and summary
are installed and the node becomes ready; on rejection the node is
marked error with the fixed failure title. -/
def resolveLinkNode (node : ContextNode) (result : Except Unit (Str × Str)) : ContextNode :=
  match result with
  | Except.ok ts => { node with title := ts.1, content := ts.2, status := some NodeStatus.ready }
  | Except.error _ =>
    { node with status := some NodeStatus.error, title := "Fetch Failed".toList }

inductive FetchOutcome
  | failure
  | success (text : Str)
deriving DecidableEq

/-- Line-content test for the dot character class of the TITLE regex in
fetchLinkContent (anything but a line terminator). -/
def isLineChar (c : Char) : Bool :=
  !(c == '\n' || c == '\r')

/-- Fuel-bounded scan for the leftmost case-insensitive occurrence of a
lowercase pattern, as performed by the i-flagged regexes of
fetchLinkContent. -/
def searchFromCI (pat s : Str) : Nat → Nat → Option Nat
  | 0, _ => none
  | fuel+1, i =>
    if pat.isPrefixOf ((s.drop i).map Char.toLower) then some i
    else searchFromCI pat s fuel (i+1)

/-- Leftmost case-insensitive occurrence of a lowercase pattern. -/
def firstOccCI (pat s : Str) : Option Nat :=
  searchFromCI pat s (s.length + 1) 0

/-- fetchLinkContent of src/services/geminiService.ts as a function of
the grounded-completion outcome: the TITLE line (trimmed, cut to 40
characters, with a fixed default) and the SUMMARY tail (trimmed, with
the leading 200 characters of the text as default); on any error the
fixed fallback title with a summary echoing the original URL. -/
def fetchLinkContent (url : Str) (outcome : FetchOutcome) : Str × Str :=
  match outcome with
  | .failure => ("External Resource".toList, "Reference to: ".toList ++ url)
  | .success text =>
    let title :=
      match firstOccCI "title:".toList text with
      | some i => (jsTrim (((text.drop (i + 6)).dropWhile isJsSpace).takeWhile isLineChar)).take 40
      | none => "Ingested Node".toList
    let summary :=
      match firstOccCI "summary:".toList text with
      | some i => jsTrim ((text.drop (i + 8)).dropWhile isJsSpace)
      | none => text.take 200
    (title, summary)

structure GroundingSource where
  title : Str
  uri : Str
deriving DecidableEq

instance : Nonempty GroundingSource := ⟨⟨[], []⟩⟩

structure WebInfo where
  uri : Option Str
  title : Option Str
deriving DecidableEq

structure GroundingChunk where
  web : Option WebInfo
deriving DecidableEq

/-- JavaScript truthiness of an optional string field. -/
def strTruthy : Option Str → Bool
  | some s => !s.isEmpty
  | none => false

/-- The chunk filter of searchUserBio: both web.uri and web.title must
be present and truthy. -/
def chunkOk (c : GroundingChunk) : Bool :=
  match c.web with
  | some w => strTruthy w.uri && strTruthy w.title
  | none => false

/-- The chunk-to-source projection of searchUserBio. -/
def chunkToSource (c : GroundingChunk) : GroundingSource :=
  match c.web with
  | some w => { title := w.title.getD [], uri := w.uri.getD [] }
  | none => { title := [], uri := [] }

/-- The filtered, mapped source list of searchUserBio before
deduplication. -/
def extractedSources (chunks : List GroundingChunk) : List GroundingSource :=
  (chunks.filter chunkOk).map chunkToSource

/-- One JavaScript Map.set step on an association list: an existing key
keeps its position but its value is overwritten; a new key is appended. -/
def mapSet (m : List (Str × GroundingSource)) (k : Str) (v : GroundingSource) :
    List (Str × GroundingSource) :=
  if m.any (fun p => decide (p.1 = k)) then
    m.map fun p => if p.1 = k then (p.1, v) else p
  else m ++ [(k, v)]

/-- The JavaScript Map built over uri keys by searchUserBio. -/
def buildUriMap (srcs : List GroundingSource) : List (Str × GroundingSource) :=
  srcs.foldl (fun m s => mapSet m s.uri s) []

/-- Array.from(new Map(sources.map(item to [item.uri, item])).values())
of searchUserBio: deduplication by uri with JavaScript Map semantics. -/
def dedupByUri (srcs : List GroundingSource) : List GroundingSource :=
  (buildUriMap srcs).map Prod.snd

/-- The deduplicated source list surfaced by searchUserBio for a given
grounding chunk list. -/
def searchUserBioSources (chunks : List GroundingChunk) : List GroundingSource :=
  dedupByUri (extractedSources chunks)

/-- The last source in the list carrying a given uri, if any. -/
def lastWith (srcs : List GroundingSource) (u : Str) : Option GroundingSource :=
  srcs.reverse.find? fun s => decide (s.uri = u)

/-- A ready text node used in concrete checks. -/
def exNodeReady : ContextNode :=
  { id := "n1".toList, type := ContextNodeType.text, title := "T1".toList,
    content := "C1".toList, mimeType := none, timestamp := 1,
    status := some NodeStatus.ready }

/-- A fetching link node used in concrete checks. -/
def exNodeFetching : ContextNode :=
  { id := "n2".toList, type := ContextNodeType.link, title := "T2".toList,
    content := "C2".toList, mimeType := none, timestamp := 2,
    status := some NodeStatus.fetching }

/-- An errored link node used in concrete checks. -/
def exNodeError : ContextNode :=
  { id := "n3".toList, type := ContextNodeType.link, title := "T3".toList,
    content := "C3".toList, mimeType := none, timestamp := 3,
    status := some NodeStatus.error }

/-- A ready file node used in concrete checks. -/
def exFileNodeA : ContextNode :=
  { id := "f1".toList, type := ContextNodeType.file, title := "doc.pdf".toList,
    content := "AAAA".toList, mimeType := some "application/pdf".toList, timestamp := 4,
    status := some NodeStatus.ready }

/-- The same file node with different content and mime type. -/
def exFileNodeB : ContextNode :=
  { id := "f1".toList, type := ContextNodeType.file, title := "doc.pdf".toList,
    content := "BBBBBB".toList, mimeType := some "text/plain".toList, timestamp := 4,
    status := some NodeStatus.ready }

/-- A persona profile used in concrete checks. -/
def exProfile : UserProfile :=
  { name := "Ada".toList, bio := "Pioneer.".toList, links := none,
    source := ProfileSource.manual, topic := none, avatarUrl := none }

/-- A grounding chunk with uri u and title t1, used in concrete checks. -/
def exChunk1 : GroundingChunk :=
  { web := some { uri := some "u".toList, title := some "t1".toList } }

/-- A second grounding chunk with the same uri u but title t2. -/
def exChunk2 : GroundingChunk :=
  { web := some { uri := some "u".toList, title := some "t2".toList } }

/-- The optional sketch tail of a well-formed duet completion text. -/
def duetTail : Option Str → Str
  | none => []
  | some D => sketchMarker ++ (D ++ sketchCloseMarker)

/-- A well-formed duet completion text with streams A, B, C and an
optional sketch directive. -/
def duetText (A B C : Str) (opt : Option Str) : Str :=
  primaryMarker ++ (A ++ (metaMarker ++ (B ++ (responseMarker ++ (C ++ duetTail opt)))))

/-- Two context nodes equal except that, when they are file nodes, the
content and mime type may differ. -/
def FileVariant (n m : ContextNode) : Prop :=
  n.id = m.id ∧ n.type = m.type ∧ n.title = m.title ∧ n.timestamp = m.timestamp ∧
  n.status = m.status ∧
  (n.type = ContextNodeType.file ∨ (n.content = m.content ∧ n.mimeType = m.mimeType))

theorem searchFrom_some_of (pat s : Str) (fuel i j : Nat) (hij : i ≤ j) (hj : j < i + fuel)
    (hocc : occursAtB pat s j = true)
    (hmin : ∀ k, i ≤ k → k < j → occursAtB pat s k = false) :
    searchFrom pat s fuel i = some j := by
  induction fuel generalizing i with
  | zero => omega
  | succ n ih =>
    by_cases h : occursAtB pat s i = true
    · have hij' : i = j := by
        by_contra hne
        have hlt : i < j := Nat.lt_of_le_of_ne hij hne
        have hf := hmin i le_rfl hlt
        rw [hf] at h
        exact Bool.false_ne_true h
      subst hij'
      simp [searchFrom, h]
    · have hfalse : occursAtB pat s i = false := Bool.eq_false_iff.mpr h
      have hne : i ≠ j := by
        intro he
        rw [he, hocc] at hfalse
        exact Bool.false_ne_true hfalse.symm
      have hlt : i < j := Nat.lt_of_le_of_ne hij hne
      rw [searchFrom, hfalse]
      simp only [Bool.false_eq_true, if_false]
      exact ih (i + 1) hlt (by omega) (fun k hk1 hk2 => hmin k (by omega) hk2)

theorem searchFrom_none_of (pat s : Str) (fuel i : Nat)
    (h : ∀ k, i ≤ k → k < i + fuel → occursAtB pat s k = false) :
    searchFrom pat s fuel i = none := by
  induction fuel generalizing i with
  | zero => rfl
  | succ n ih =>
    have h0 : occursAtB pat s i = false := h i le_rfl (by omega)
    rw [searchFrom, h0]
    simp only [Bool.false_eq_true, if_false]
    exact ih (i + 1) (fun k hk1 hk2 => h k (by omega) (by omega))

theorem occursAtB_lt_length (pat s : Str) (i : Nat) (hpat : pat ≠ [])
    (h : occursAtB pat s i = true) : i < s.length := by
  by_contra hge
  push_neg at hge
  have hdrop : s.drop i = [] := List.drop_eq_nil_of_le hge
  rw [occursAtB, hdrop] at h
  cases pat with
  | nil => exact hpat rfl
  | cons a as => simp at h

theorem firstOccFrom_eq_some (pat s : Str) (start j : Nat) (hsj : start ≤ j)
    (hjs : j ≤ s.length) (hocc : occursAtB pat s j = true)
    (hmin : ∀ k, start ≤ k → k < j → occursAtB pat s k = false) :
    firstOccFrom pat s start = some j :=
  searchFrom_some_of pat s _ start j hsj (by omega) hocc hmin

theorem firstOccFrom_eq_none (pat s : Str) (start : Nat) (hpat : pat ≠ [])
    (h : ∀ k, start ≤ k → k ≤ s.length → occursAtB pat s k = false) :
    firstOccFrom pat s start = none := by
  apply searchFrom_none_of
  intro k hk1 _
  cases hco : occursAtB pat s k with
  | false => rfl
  | true =>
    have hk3 : k < s.length := occursAtB_lt_length pat s k hpat hco
    have hf := h k hk1 (le_of_lt hk3)
    rw [hf] at hco
    exact absurd hco Bool.false_ne_true

theorem occursAtB_append_self (X Y pat : Str) :
    occursAtB pat (X ++ (pat ++ Y)) X.length = true := by
  rw [occursAtB, List.drop_left]
  simp [List.prefix_append]

theorem occursAtB_shift (X Z pat : Str) (i : Nat) (h : occursAtB pat Z i = true) :
    occursAtB pat (X ++ Z) (X.length + i) = true := by
  rw [occursAtB] at h ⊢
  rw [← List.drop_drop, List.drop_left]
  exact h

theorem sliceStr_append (X A Y : Str) :
    sliceStr (X ++ (A ++ Y)) X.length (X.length + A.length) = A := by
  rw [sliceStr, List.drop_left]
  have hlen : X.length + A.length - X.length = A.length := by omega
  rw [hlen, List.take_left]

/-- Claim C1: for every raw completion text the response parse inside
chatWithClone is total and yields all three required string fields,
each being either the trimmed delimiter-extracted substring or its
named fallback constant: primaryThought falls back to the synthesizing
placeholder when the PRIMARY..META pair is unmatched, metaThought to
the analyzing-perception placeholder when META..RESPONSE is unmatched,
and finalResponse to the entire raw text when the RESPONSE pattern is
unmatched. -/
theorem parse_fields_total_with_fallbacks (text : Str) :
    ((∃ s, primaryMatch text = some s ∧ (parseClone text).primaryThought = jsTrim s) ∨
      (primaryMatch text = none ∧ (parseClone text).primaryThought = synthesizingFallback)) ∧
    ((∃ s, metaMatch text = some s ∧ (parseClone text).metaThought = jsTrim s) ∨
      (metaMatch text = none ∧ (parseClone text).metaThought = analyzingFallback)) ∧
    ((∃ s, responseMatch text = some s ∧ (parseClone text).finalResponse = jsTrim s) ∨
      (responseMatch text = none ∧ (parseClone text).finalResponse = text)) := by
  refine ⟨?_, ?_, ?_⟩
  · cases h : primaryMatch text with
    | some s => exact Or.inl ⟨s, rfl, by simp [parseClone, h]⟩
    | none => exact Or.inr ⟨rfl, by simp [parseClone, h]⟩
  · cases h : metaMatch text with
    | some s => exact Or.inl ⟨s, rfl, by simp [parseClone, h]⟩
    | none => exact Or.inr ⟨rfl, by simp [parseClone, h]⟩
  · cases h : responseMatch text with
    | some s => exact Or.inl ⟨s, rfl, by simp [parseClone, h]⟩
    | none => exact Or.inr ⟨rfl, by simp [parseClone, h]⟩

/-- Claim C3: if the single completion call inside chatWithClone
rejects, chatWithClone still resolves with the fixed constant fallback
triple, with the documented Sync Loss and Perception Drift placeholders
and the fixed dissonance message, all non-empty, and no sketch. -/
theorem chat_failure_fallback_triple (sketchGen : Str → Str) :
    chatWithClone CompletionOutcome.failure sketchGen = syncLossFallback ∧
    syncLossFallback.primaryThought = "Sync Loss.".toList ∧
    syncLossFallback.metaThought = "Perception Drift.".toList ∧
    syncLossFallback.finalResponse =
      "I am experiencing a cognitive dissonance. Re-aligning streams.".toList ∧
    syncLossFallback.sketchUrl = none ∧
    syncLossFallback.primaryThought ≠ [] ∧
    syncLossFallback.metaThought ≠ [] ∧
    syncLossFallback.finalResponse ≠ [] := by
  exact ⟨rfl, rfl, rfl, rfl, rfl, by decide, by decide, by decide⟩

/-- Claim C4 counterexample: when the completion call returns without
throwing but no text is available, the finalResponse of the returned
CloneResponse is the empty string rather than a fixed non-empty
placeholder, refuting the claim that all three required fields carry
non-empty placeholder text. -/
theorem chat_no_text_final_empty :
    (chatWithClone (CompletionOutcome.success none) (fun _ => [])).primaryThought =
      synthesizingFallback ∧
    (chatWithClone (CompletionOutcome.success none) (fun _ => [])).metaThought =
      analyzingFallback ∧
    (chatWithClone (CompletionOutcome.success none) (fun _ => [])).finalResponse = [] := by
  decide

/-- Claim C4 amended: when the completion call returns without throwing
but no text is available, chatWithClone returns the fallback
CloneResponse whose primaryThought and metaThought are fixed non-empty
placeholders, while finalResponse falls back to the raw text, which is
the empty string in this case, and no sketch is attached. -/
theorem chat_no_text_placeholder (sketchGen : Str → Str) (t : Option Str)
    (h : responseText t = []) :
    chatWithClone (CompletionOutcome.success t) sketchGen =
      { primaryThought := synthesizingFallback, metaThought := analyzingFallback,
        finalResponse := [], sketchUrl := none } ∧
    synthesizingFallback ≠ [] ∧ analyzingFallback ≠ [] := by
  have hp : parseClone ([] : Str) =
      { primaryThought := synthesizingFallback, metaThought := analyzingFallback,
        finalResponse := [], sketchDirective := none } := by decide
  refine ⟨?_, by decide, by decide⟩
  simp [chatWithClone, h, hp]

/-- Claim C4 amended witness at the empty completion result. -/
theorem chat_no_text_placeholder_witness :
    (chatWithClone (CompletionOutcome.success none) (fun _ => []) =
      { primaryThought := synthesizingFallback, metaThought := analyzingFallback,
        finalResponse := [], sketchUrl := none } ∧
      synthesizingFallback ≠ [] ∧ analyzingFallback ≠ []) :=
  chat_no_text_placeholder (fun _ => []) none rfl

/-- Claim C5 counterexample: on the completion text consisting of an
empty SKETCH pair, the parsed sketch directive is present but empty,
and the secondary image-generation call is nevertheless issued,
refuting the claim that the call is issued only for a non-empty
directive. -/
theorem sketch_invoked_on_empty_directive :
    (parseClone "[[SKETCH]][[/SKETCH]]".toList).sketchDirective = some [] ∧
    (chatWithClone (CompletionOutcome.success (some "[[SKETCH]][[/SKETCH]]".toList))
      (fun _ => [])).sketchUrl.isSome = true := by
  decide

/-- Claim C5 amended: the secondary image-generation call is issued if
and only if the parsed sketch directive is present, that is the SKETCH
pair matched, even when the directive text is empty; in particular for
a completion text with no SKETCH pair nothing is invoked and the
resulting CloneResponse carries no sketch image. -/
theorem sketch_invocation_iff_match (t : Str) (sketchGen : Str → Str) :
    ((chatWithClone (CompletionOutcome.success (some t)) sketchGen).sketchUrl.isSome =
      ((parseClone t).sketchDirective).isSome) ∧
    ((parseClone t).sketchDirective).isSome = (sketchMatch t).isSome ∧
    (sketchMatch t = none →
      (chatWithClone (CompletionOutcome.success (some t)) sketchGen).sketchUrl = none) := by
  refine ⟨?_, ?_, ?_⟩
  · simp [chatWithClone, responseText]
  · simp [parseClone]
  · intro h
    simp [chatWithClone, responseText, parseClone, h]

/-- Claim C5 amended witness at a sketch-free completion text. -/
theorem sketch_invocation_iff_match_witness :
    ((chatWithClone (CompletionOutcome.success (some "hello".toList))
        (fun _ => [])).sketchUrl.isSome =
      ((parseClone "hello".toList).sketchDirective).isSome) ∧
    ((parseClone "hello".toList).sketchDirective).isSome =
      (sketchMatch "hello".toList).isSome ∧
    (sketchMatch "hello".toList = none →
      (chatWithClone (CompletionOutcome.success (some "hello".toList))
        (fun _ => [])).sketchUrl = none) :=
  sketch_invocation_iff_match "hello".toList (fun _ => [])

/-- Claim C6: on every failure of the sketch image-generation call,
transport error or missing inline image payload, the sketch
augmentation yields the empty result, no sketch is attached to the
turn, and the primaryThought, metaThought and finalResponse of the
CloneResponse remain exactly the values extracted from the parsed
completion text. -/
theorem sketch_failure_preserves_turn (t : Str) (outcome : SketchOutcome)
    (h : outcome = SketchOutcome.transportError ∨
      ∃ parts, outcome = SketchOutcome.success parts ∧ firstInlineImage parts = none) :
    generateSketch outcome = [] ∧
    sketchAttached (chatWithClone (CompletionOutcome.success (some t))
      (fun _ => generateSketch outcome)) = false ∧
    (chatWithClone (CompletionOutcome.success (some t))
      (fun _ => generateSketch outcome)).primaryThought = (parseClone t).primaryThought ∧
    (chatWithClone (CompletionOutcome.success (some t))
      (fun _ => generateSketch outcome)).metaThought = (parseClone t).metaThought ∧
    (chatWithClone (CompletionOutcome.success (some t))
      (fun _ => generateSketch outcome)).finalResponse = (parseClone t).finalResponse := by
  have hgen : generateSketch outcome = [] := by
    rcases h with h | ⟨parts, hp, hfi⟩
    · rw [h]; rfl
    · rw [hp]; simp [generateSketch, hfi]
  refine ⟨hgen, ?_, ?_, ?_, ?_⟩
  · cases hd : (parseClone t).sketchDirective with
    | none => simp [sketchAttached, chatWithClone, responseText, hd]
    | some d => simp [sketchAttached, chatWithClone, responseText, hd, hgen]
  · simp [chatWithClone, responseText]
  · simp [chatWithClone, responseText]
  · simp [chatWithClone, responseText]

/-- Claim C6 witness at a full duet text and a transport error. -/
theorem sketch_failure_preserves_turn_witness :
    generateSketch SketchOutcome.transportError = [] ∧
    sketchAttached (chatWithClone
      (CompletionOutcome.success (some "[[PRIMARY]]A[[META]]B[[RESPONSE]]C[[SKETCH]]D[[/SKETCH]]".toList))
      (fun _ => generateSketch SketchOutcome.transportError)) = false ∧
    (chatWithClone
      (CompletionOutcome.success (some "[[PRIMARY]]A[[META]]B[[RESPONSE]]C[[SKETCH]]D[[/SKETCH]]".toList))
      (fun _ => generateSketch SketchOutcome.transportError)).primaryThought =
      (parseClone "[[PRIMARY]]A[[META]]B[[RESPONSE]]C[[SKETCH]]D[[/SKETCH]]".toList).primaryThought ∧
    (chatWithClone
      (CompletionOutcome.success (some "[[PRIMARY]]A[[META]]B[[RESPONSE]]C[[SKETCH]]D[[/SKETCH]]".toList))
      (fun _ => generateSketch SketchOutcome.transportError)).metaThought =
      (parseClone "[[PRIMARY]]A[[META]]B[[RESPONSE]]C[[SKETCH]]D[[/SKETCH]]".toList).metaThought ∧
    (chatWithClone
      (CompletionOutcome.success (some "[[PRIMARY]]A[[META]]B[[RESPONSE]]C[[SKETCH]]D[[/SKETCH]]".toList))
      (fun _ => generateSketch SketchOutcome.transportError)).finalResponse =
      (parseClone "[[PRIMARY]]A[[META]]B[[RESPONSE]]C[[SKETCH]]D[[/SKETCH]]".toList).finalResponse :=
  sketch_failure_preserves_turn
    "[[PRIMARY]]A[[META]]B[[RESPONSE]]C[[SKETCH]]D[[/SKETCH]]".toList
    SketchOutcome.transportError (Or.inl rfl)

/-- Claim C7: a context node contributes to the prompt payload built
for a handleSend turn exactly when its status is ready, and inserting a
node of any other status anywhere in the list leaves the serialized
injected-context block unchanged: idle, fetching and error nodes are
silently excluded. -/
theorem ready_nodes_only_in_prompt (nodes xs ys : List ContextNode) (n m : ContextNode)
    (hn : n.status ≠ some NodeStatus.ready) :
    (m ∈ promptNodes nodes ↔ m ∈ nodes ∧ m.status = some NodeStatus.ready) ∧
    handleSendExtraContext (xs ++ n :: ys) = handleSendExtraContext (xs ++ ys) := by
  have hdec : decide (n.status = some NodeStatus.ready) = false := decide_eq_false hn
  constructor
  · simp [promptNodes, List.mem_filter]
  · simp [handleSendExtraContext, promptNodes, List.filter_append, List.filter_cons, hdec]

/-- Claim C7 witness: of three nodes with statuses fetching, ready and
error, only the ready one is kept, and dropping the error node does not
change the injected-context block. -/
theorem ready_nodes_only_in_prompt_witness :
    (exNodeReady ∈ promptNodes [exNodeFetching, exNodeReady, exNodeError] ↔
      exNodeReady ∈ [exNodeFetching, exNodeReady, exNodeError] ∧
      exNodeReady.status = some NodeStatus.ready) ∧
    handleSendExtraContext ([exNodeFetching, exNodeReady] ++ exNodeError :: []) =
      handleSendExtraContext ([exNodeFetching, exNodeReady] ++ []) :=
  ready_nodes_only_in_prompt [exNodeFetching, exNodeReady, exNodeError]
    [exNodeFetching, exNodeReady] [] exNodeError exNodeReady (by decide)

/-- Claim C9: a link context node is created in fetching status, and
the settlement of its awaited fetch ends it in exactly one of two
states: ready, with its content replaced by the fetched summary and its
title by the fetched title, on resolution; or error, with its title
replaced by the fixed failure marker, on rejection. -/
theorem link_node_lifecycle (title content : Str) (mimeType : Option Str) (id : Str)
    (timestamp : Nat) (node : ContextNode) (result : Except Unit (Str × Str))
    (hmk : addContextNode ContextNodeType.link title content mimeType id timestamp =
      some node) :
    node.status = some NodeStatus.fetching ∧
    (match result with
     | Except.ok ts =>
       (resolveLinkNode node result).status = some NodeStatus.ready ∧
       (resolveLinkNode node result).content = ts.2 ∧
       (resolveLinkNode node result).title = ts.1
     | Except.error _ =>
       (resolveLinkNode node result).status = some NodeStatus.error ∧
       (resolveLinkNode node result).title = "Fetch Failed".toList) := by
  constructor
  · rw [addContextNode] at hmk
    by_cases hc : jsTrim content = []
    · simp [hc] at hmk
    · simp only [hc, if_false, Option.some_inj] at hmk
      rw [← hmk]
      simp
  · cases result with
    | ok ts => exact ⟨rfl, rfl, rfl⟩
    | error e => exact ⟨rfl, rfl⟩

/-- Claim C9 witness: a concrete link node is created fetching and
resolves to ready with the fetched title and summary installed. -/
theorem link_node_lifecycle_witness :
    ({ id := "i".toList, type := ContextNodeType.link, title := "T".toList,
       content := "http://x".toList, mimeType := none, timestamp := 5,
       status := some NodeStatus.fetching } : ContextNode).status =
      some NodeStatus.fetching ∧
    ((resolveLinkNode
        { id := "i".toList, type := ContextNodeType.link, title := "T".toList,
          content := "http://x".toList, mimeType := none, timestamp := 5,
          status := some NodeStatus.fetching }
        (Except.ok ("S".toList, "sum".toList))).status = some NodeStatus.ready ∧
      (resolveLinkNode
        { id := "i".toList, type := ContextNodeType.link, title := "T".toList,
          content := "http://x".toList, mimeType := none, timestamp := 5,
          status := some NodeStatus.fetching }
        (Except.ok ("S".toList, "sum".toList))).content = "sum".toList ∧
      (resolveLinkNode
        { id := "i".toList, type := ContextNodeType.link, title := "T".toList,
          content := "http://x".toList, mimeType := none, timestamp := 5,
          status := some NodeStatus.fetching }
        (Except.ok ("S".toList, "sum".toList))).title = "S".toList) :=
  link_node_lifecycle "T".toList "http://x".toList none "i".toList 5 _
    (Except.ok ("S".toList, "sum".toList)) (by decide)

/-- Claim C10: the prompt payload built by chatWithClone is independent
of the content and mime type of file-type context nodes: two
invocations whose context-node lists agree pointwise except possibly in
the content and mime type of file nodes produce identical prompt
payloads, because a file node contributes only its title to the
injected-context block. -/
theorem prompt_independent_of_file_content (history : List AgentMessage) (userMessage : Str)
    (profile : UserProfile) (attachments : List Attachment)
    (nodes nodes' : List ContextNode) (h : List.Forall₂ FileVariant nodes nodes') :
    buildPrompt history userMessage profile attachments nodes =
      buildPrompt history userMessage profile attachments nodes' := by
  have hdesc : nodes.map nodeDescriptor = nodes'.map nodeDescriptor := by
    induction h with
    | nil => rfl
    | cons hv _ ih =>
      obtain ⟨_, hty, hti, _, _, hrest⟩ := hv
      simp only [List.map_cons, ih, List.cons.injEq, and_true]
      rcases hrest with hfile | ⟨hco, _⟩
      · have hb := hty.symm.trans hfile
        simp [nodeDescriptor, hfile, hb, hti]
      · simp [nodeDescriptor, hty, hti, hco]
  have hempty : nodes.isEmpty = nodes'.isEmpty := by
    cases h with
    | nil => rfl
    | cons _ _ => rfl
  rw [buildPrompt, buildPrompt, systemInstructionOf, systemInstructionOf,
    extraContextOf, extraContextOf, hempty, hdesc]

/-- Claim C10 witness: two singleton lists holding the same file node
with different content and mime type yield identical prompts. -/
theorem prompt_independent_of_file_content_witness :
    buildPrompt [] "hi".toList exProfile [] [exFileNodeA] =
      buildPrompt [] "hi".toList exProfile [] [exFileNodeB] :=
  prompt_independent_of_file_content [] "hi".toList exProfile [] [exFileNodeA] [exFileNodeB]
    (List.Forall₂.cons ⟨rfl, rfl, rfl, rfl, rfl, Or.inl rfl⟩ List.Forall₂.nil)

theorem mapSet_fst (k : Str) (v : GroundingSource)
    (p : Str × GroundingSource) :
    (if p.1 = k then (p.1, v) else p).1 = p.1 := by
  by_cases h : p.1 = k <;> simp [h]

theorem mapSet_keys (m : List (Str × GroundingSource)) (k : Str) (v : GroundingSource) :
    (mapSet m k v).map Prod.fst =
      if m.any (fun p => decide (p.1 = k)) then m.map Prod.fst
      else m.map Prod.fst ++ [k] := by
  rw [mapSet]
  by_cases h : m.any (fun p => decide (p.1 = k))
  · simp only [h, if_true, List.map_map]
    exact List.map_congr_left fun p _ => mapSet_fst k v p
  · simp [h]

theorem mapSet_keys_mem (m : List (Str × GroundingSource)) (k u : Str)
    (v : GroundingSource) :
    u ∈ (mapSet m k v).map Prod.fst ↔ (u ∈ m.map Prod.fst ∨ u = k) := by
  rw [mapSet_keys]
  by_cases h : m.any (fun p => decide (p.1 = k))
  · simp only [h, if_true]
    constructor
    · exact Or.inl
    · rintro (hu | heq)
      · exact hu
      · obtain ⟨p, hp, hpk⟩ := List.any_eq_true.mp h
        have hpk2 : p.1 = k := by simpa using hpk
        rw [heq]
        exact List.mem_map.mpr ⟨p, hp, hpk2⟩
  · simp [h]

theorem mapSet_keys_nodup (m : List (Str × GroundingSource)) (k : Str)
    (v : GroundingSource) (hm : (m.map Prod.fst).Nodup) :
    ((mapSet m k v).map Prod.fst).Nodup := by
  rw [mapSet_keys]
  by_cases h : m.any (fun p => decide (p.1 = k))
  · simpa [h] using hm
  · have h2 : m.any (fun p => decide (p.1 = k)) = false := Bool.eq_false_iff.mpr h
    rw [h2]
    simp only [Bool.false_eq_true, if_false]
    rw [List.nodup_append]
    refine ⟨hm, List.nodup_singleton k, ?_⟩
    intro u hu hk
    rcases List.mem_singleton.mp hk with rfl
    obtain ⟨p, hp, hpu⟩ := List.mem_map.mp hu
    have h3 := List.any_eq_false.mp h2 p hp
    exact h3 (decide_eq_true hpu)

theorem foldl_mapSet_keys_nodup (srcs : List GroundingSource)
    (m : List (Str × GroundingSource)) (hm : (m.map Prod.fst).Nodup) :
    ((srcs.foldl (fun acc s => mapSet acc s.uri s) m).map Prod.fst).Nodup := by
  induction srcs generalizing m with
  | nil => exact hm
  | cons s rest ih =>
    rw [List.foldl_cons]
    exact ih (mapSet m s.uri s) (mapSet_keys_nodup m s.uri s hm)

theorem foldl_mapSet_keys_mem (srcs : List GroundingSource)
    (m : List (Str × GroundingSource)) (u : Str) :
    u ∈ (srcs.foldl (fun acc s => mapSet acc s.uri s) m).map Prod.fst ↔
      (u ∈ m.map Prod.fst ∨ u ∈ srcs.map GroundingSource.uri) := by
  induction srcs generalizing m with
  | nil => simp
  | cons s rest ih =>
    rw [List.foldl_cons, ih, mapSet_keys_mem]
    simp only [List.map_cons, List.mem_cons]
    tauto

theorem mapSet_key_uri (m : List (Str × GroundingSource)) (s : GroundingSource)
    (hm : ∀ p ∈ m, p.1 = p.2.uri) :
    ∀ p ∈ mapSet m s.uri s, p.1 = p.2.uri := by
  intro p hp
  rw [mapSet] at hp
  by_cases h : m.any (fun q => decide (q.1 = s.uri))
  · simp only [h, if_true] at hp
    obtain ⟨q, hq, hqe⟩ := List.mem_map.mp hp
    by_cases hqk : q.1 = s.uri
    · rw [if_pos hqk] at hqe
      rw [← hqe]
      exact hqk
    · rw [if_neg hqk] at hqe
      rw [← hqe]
      exact hm q hq
  · have h2 : m.any (fun q => decide (q.1 = s.uri)) = false := Bool.eq_false_iff.mpr h
    rw [h2] at hp
    simp only [Bool.false_eq_true, if_false] at hp
    rcases List.mem_append.mp hp with h1 | h1
    · exact hm p h1
    · rcases List.mem_singleton.mp h1 with rfl
      rfl

theorem foldl_mapSet_key_uri (srcs : List GroundingSource)
    (m : List (Str × GroundingSource)) (hm : ∀ p ∈ m, p.1 = p.2.uri) :
    ∀ p ∈ srcs.foldl (fun acc s => mapSet acc s.uri s) m, p.1 = p.2.uri := by
  induction srcs generalizing m with
  | nil => exact hm
  | cons s rest ih =>
    rw [List.foldl_cons]
    exact ih (mapSet m s.uri s) (mapSet_key_uri m s hm)

theorem mapSet_find? (m : List (Str × GroundingSource)) (k u : Str) (v : GroundingSource) :
    (mapSet m k v).find? (fun p => decide (p.1 = u)) =
      if u = k then some (k, v) else m.find? (fun p => decide (p.1 = u)) := by
  have hcomp : ((fun p : Str × GroundingSource => decide (p.1 = u)) ∘
      (fun p : Str × GroundingSource => if p.1 = k then (p.1, v) else p)) =
      (fun p : Str × GroundingSource => decide (p.1 = u)) := by
    funext q
    simp only [Function.comp_apply]
    rw [mapSet_fst k v q]
  rw [mapSet]
  by_cases h : m.any (fun p => decide (p.1 = k))
  · simp only [h, if_true]
    rw [List.find?_map, hcomp]
    by_cases hu : u = k
    · rw [if_pos hu]
      obtain ⟨p0, hp0, hpk⟩ := List.any_eq_true.mp h
      have hpk1 : p0.1 = k := by simpa using hpk
      have hpk2 : p0.1 = u := hpk1.trans hu.symm
      obtain ⟨q, hfq⟩ :
          ∃ q, m.find? (fun p : Str × GroundingSource => decide (p.1 = u)) = some q :=
        Option.isSome_iff_exists.mp (List.find?_isSome.mpr ⟨p0, hp0, decide_eq_true hpk2⟩)
      have hq2 : q.1 = u := by simpa using List.find?_some hfq
      have hqk : q.1 = k := hq2.trans hu
      rw [hfq]
      simp only [Option.map_some']
      rw [if_pos hqk, hqk]
    · rw [if_neg hu]
      cases hf : m.find? (fun p : Str × GroundingSource => decide (p.1 = u)) with
      | none => rfl
      | some q =>
        have hq2 : q.1 = u := by simpa using List.find?_some hf
        have hne : ¬(q.1 = k) := by
          rw [hq2]
          exact hu
        simp only [Option.map_some']
        rw [if_neg hne]
  · have h2 : m.any (fun p => decide (p.1 = k)) = false := Bool.eq_false_iff.mpr h
    rw [h2]
    simp only [Bool.false_eq_true, if_false]
    rw [List.find?_append]
    by_cases hu : u = k
    · rw [if_pos hu]
      have hnone : m.find? (fun p : Str × GroundingSource => decide (p.1 = u)) = none := by
        rw [List.find?_eq_none]
        intro x hx hpx
        have hxu : x.1 = u := by simpa using hpx
        exact List.any_eq_false.mp h2 x hx (decide_eq_true (hxu.trans hu))
      rw [hnone, Option.none_or]
      exact List.find?_cons_of_pos _ (decide_eq_true hu.symm)
    · rw [if_neg hu]
      have hsingle : List.find? (fun p : Str × GroundingSource => decide (p.1 = u)) [(k, v)] =
          none := by
        rw [List.find?_eq_none]
        intro x hx hpx
        rcases List.mem_singleton.mp hx with rfl
        have hk : k = u := by simpa using hpx
        exact hu hk.symm
      rw [hsingle, Option.or_none]

theorem foldl_mapSet_find? (srcs : List GroundingSource)
    (m : List (Str × GroundingSource)) (u : Str) :
    (srcs.foldl (fun acc s => mapSet acc s.uri s) m).find?
      (fun p => decide (p.1 = u)) =
      (match lastWith srcs u with
       | some t => some (u, t)
       | none => m.find? (fun p => decide (p.1 = u))) := by
  induction srcs generalizing m with
  | nil => simp [lastWith]
  | cons s rest ih =>
    rw [List.foldl_cons, ih]
    have hlw : lastWith (s :: rest) u =
        (lastWith rest u).or (List.find? (fun t => decide (t.uri = u)) [s]) := by
      rw [lastWith, lastWith, List.reverse_cons, List.find?_append]
    rw [hlw]
    cases hr : lastWith rest u with
    | some t => simp
    | none =>
      simp only [Option.none_or]
      rw [mapSet_find?]
      by_cases hsu : s.uri = u
      · rw [if_pos hsu.symm]
        have hfind : List.find? (fun t => decide (t.uri = u)) [s] = some s :=
          List.find?_cons_of_pos _ (decide_eq_true hsu)
        rw [hfind, hsu]
      · rw [if_neg (fun he => hsu he.symm)]
        have hnone : List.find? (fun t => decide (t.uri = u)) [s] = none := by
          rw [List.find?_eq_none]
          intro x hx hpx
          rcases List.mem_singleton.mp hx with rfl
          exact hsu (by simpa using hpx)
        rw [hnone]

theorem find?_eq_of_mem_nodup (m : List (Str × GroundingSource))
    (p : Str × GroundingSource) (hp : p ∈ m) (hnd : (m.map Prod.fst).Nodup) :
    m.find? (fun q => decide (q.1 = p.1)) = some p := by
  induction m with
  | nil => cases hp
  | cons q rest ih =>
    rw [List.map_cons, List.nodup_cons] at hnd
    rcases List.mem_cons.mp hp with rfl | hrest
    · exact List.find?_cons_of_pos _ (decide_eq_true rfl)
    · have hq : ¬((fun r : Str × GroundingSource => decide (r.1 = p.1)) q = true) := by
        intro hqp
        have hqp2 : q.1 = p.1 := by simpa using hqp
        exact hnd.1 (hqp2 ▸ List.mem_map_of_mem Prod.fst hrest)
      have hstep : List.find? (fun r : Str × GroundingSource => decide (r.1 = p.1))
          (q :: rest) = List.find? (fun r => decide (r.1 = p.1)) rest :=
        List.find?_cons_of_neg _ hq
      rw [hstep]
      exact ih hrest hnd.2

/-- Claim C8 counterexample: for two grounding chunks sharing uri u with
titles t1 then t2, the source list produced by searchUserBio retains
the last-seen title t2, not the first-seen title t1, refuting the
first-seen-title part of the claim. -/
theorem dedup_keeps_last_seen_title :
    searchUserBioSources [exChunk1, exChunk2] =
      [{ title := "t2".toList, uri := "u".toList }] ∧
    ({ title := "t1".toList, uri := "u".toList } : GroundingSource) ∉
      searchUserBioSources [exChunk1, exChunk2] := by
  decide

/-- Claim C8 amended: for every list of grounding chunks, the source
list produced by searchUserBio contains each unique uri exactly once,
with the uris of the filtered chunk list and no duplicates, and for
duplicate uris the retained entry carries the last-seen title: every
retained source is the last filtered source with its uri. -/
theorem dedup_unique_uri_last_title (chunks : List GroundingChunk) (u : Str)
    (s : GroundingSource) :
    ((searchUserBioSources chunks).map GroundingSource.uri).Nodup ∧
    (u ∈ (searchUserBioSources chunks).map GroundingSource.uri ↔
      u ∈ (extractedSources chunks).map GroundingSource.uri) ∧
    (s ∈ searchUserBioSources chunks →
      lastWith (extractedSources chunks) s.uri = some s) := by
  have hinv : ∀ p ∈ buildUriMap (extractedSources chunks), p.1 = p.2.uri := by
    rw [buildUriMap]
    exact foldl_mapSet_key_uri (extractedSources chunks) []
      (by intro p hp; cases hp)
  have hkeys : (searchUserBioSources chunks).map GroundingSource.uri =
      (buildUriMap (extractedSources chunks)).map Prod.fst := by
    rw [searchUserBioSources, dedupByUri, List.map_map]
    exact List.map_congr_left fun p hp => (hinv p hp).symm
  have hnd : ((buildUriMap (extractedSources chunks)).map Prod.fst).Nodup := by
    rw [buildUriMap]
    exact foldl_mapSet_keys_nodup (extractedSources chunks) [] (by simp)
  refine ⟨?_, ?_, ?_⟩
  · rw [hkeys]
    exact hnd
  · rw [hkeys, buildUriMap, foldl_mapSet_keys_mem (extractedSources chunks) [] u]
    simp
  · intro hs
    rw [searchUserBioSources, dedupByUri] at hs
    obtain ⟨p, hp, hps⟩ := List.mem_map.mp hs
    have hkey : p.1 = s.uri := by rw [hinv p hp, hps]
    have hfind := find?_eq_of_mem_nodup (buildUriMap (extractedSources chunks)) p hp hnd
    rw [hkey, buildUriMap] at hfind
    rw [foldl_mapSet_find? (extractedSources chunks) [] s.uri] at hfind
    cases hlw : lastWith (extractedSources chunks) s.uri with
    | none =>
      rw [hlw] at hfind
      simp at hfind
    | some t =>
      rw [hlw] at hfind
      have hfind2 : some (s.uri, t) = some p := hfind
      have hpt : p = (s.uri, t) := (Option.some.inj hfind2).symm
      rw [← hps, hpt]

/-- Claim C8 amended witness at two chunks sharing one uri. -/
theorem dedup_unique_uri_last_title_witness :
    ((searchUserBioSources [exChunk1, exChunk2]).map GroundingSource.uri).Nodup ∧
    ("u".toList ∈ (searchUserBioSources [exChunk1, exChunk2]).map GroundingSource.uri ↔
      "u".toList ∈ (extractedSources [exChunk1, exChunk2]).map GroundingSource.uri) ∧
    (({ title := "t2".toList, uri := "u".toList } : GroundingSource) ∈
        searchUserBioSources [exChunk1, exChunk2] →
      lastWith (extractedSources [exChunk1, exChunk2])
        ({ title := "t2".toList, uri := "u".toList } : GroundingSource).uri =
        some { title := "t2".toList, uri := "u".toList }) := by
  have h := dedup_unique_uri_last_title [exChunk1, exChunk2] "u".toList
    { title := "t2".toList, uri := "u".toList }
  exact ⟨h.1, h.2.1, h.2.2⟩

theorem searchFrom_some_sound (pat s : Str) (fuel i j : Nat)
    (h : searchFrom pat s fuel i = some j) : occursAtB pat s j = true := by
  induction fuel generalizing i with
  | zero => exact absurd h (by simp [searchFrom])
  | succ n ih =>
    rw [searchFrom] at h
    cases hocc : occursAtB pat s i with
    | true =>
      rw [hocc, if_pos rfl] at h
      rcases Option.some.inj h with rfl
      exact hocc
    | false =>
      rw [hocc] at h
      simp only [Bool.false_eq_true, if_false] at h
      exact ih (i + 1) h

theorem firstOccFrom_some_sound (pat s : Str) (start j : Nat)
    (h : firstOccFrom pat s start = some j) : occursAtB pat s j = true :=
  searchFrom_some_sound pat s _ start j h

theorem occursAtB_zero (pat Y : Str) : occursAtB pat (pat ++ Y) 0 = true := by
  rw [occursAtB, List.drop_zero]
  simp

theorem occursAtB_append_end (X pat : Str) : occursAtB pat (X ++ pat) X.length = true := by
  rw [occursAtB, List.drop_left]
  simp

theorem drop_append_le (Z W : Str) (i : Nat) (hi : i ≤ Z.length) :
    (Z ++ W).drop i = Z.drop i ++ W := by
  induction Z generalizing i with
  | nil =>
    have : i = 0 := by simpa using hi
    subst this
    simp
  | cons a Z ih =>
    cases i with
    | zero => simp
    | succ n =>
      simp only [List.cons_append, List.drop_succ_cons]
      exact ih n (by simpa using hi)

theorem occursAtB_append_left (Z W pat : Str) (i : Nat) (hi : i ≤ Z.length)
    (h : occursAtB pat Z i = true) : occursAtB pat (Z ++ W) i = true := by
  rw [occursAtB] at h ⊢
  rw [drop_append_le Z W i hi]
  rw [ List.isPrefixOf_iff_prefix] at h ⊢
  exact h.trans (List.prefix_append _ _)

theorem jsTrim_within (s : Str) : jsTrim s <:+: s := by
  have h1 : s.dropWhile isJsSpace <:+ s := List.dropWhile_suffix isJsSpace
  have h2 : (s.dropWhile isJsSpace).reverse.dropWhile isJsSpace <:+
      (s.dropWhile isJsSpace).reverse := List.dropWhile_suffix isJsSpace
  have h3 : jsTrim s <+: s.dropWhile isJsSpace := by
    rw [jsTrim]
    have h4 := List.reverse_prefix.mpr h2
    simpa using h4
  obtain ⟨w, hw⟩ := h3
  obtain ⟨v, hv⟩ := h1
  exact ⟨v, w, by rw [List.append_assoc, hw, hv]⟩

theorem matchBetween_eq (openM closeM s : Str) (i j : Nat)
    (h1 : firstOccFrom openM s 0 = some i)
    (h2 : firstOccFrom closeM s (i + openM.length) = some j) :
    matchBetween openM closeM s = some (sliceStr s (i + openM.length) j) := by
  simp only [matchBetween, h1, h2]

theorem matchBetween_none_open (openM closeM s : Str)
    (h1 : firstOccFrom openM s 0 = none) : matchBetween openM closeM s = none := by
  simp only [matchBetween, h1]

theorem matchToEndOr_eq (openM closeM s : Str) (i j : Nat)
    (h1 : firstOccFrom openM s 0 = some i)
    (h2 : firstOccFrom closeM s (i + openM.length) = some j) :
    matchToEndOr openM closeM s = some (sliceStr s (i + openM.length) j) := by
  simp only [matchToEndOr, h1, h2]

theorem matchToEndOr_toEnd (openM closeM s : Str) (i : Nat)
    (h1 : firstOccFrom openM s 0 = some i)
    (h2 : firstOccFrom closeM s (i + openM.length) = none) :
    matchToEndOr openM closeM s = some (s.drop (i + openM.length)) := by
  simp only [matchToEndOr, h1, h2]

theorem duet_primaryMatch_eq (A B C : Str) (opt : Option Str)
    (hM : ∀ k, k < primaryMarker.length + A.length →
      occursAtB metaMarker (duetText A B C opt) k = false) :
    primaryMatch (duetText A B C opt) = some A := by
  have e1 : duetText A B C opt =
      (primaryMarker ++ A) ++
        (metaMarker ++ (B ++ (responseMarker ++ (C ++ duetTail opt)))) := by
    simp [duetText, List.append_assoc]
  have occ0 : occursAtB primaryMarker (duetText A B C opt) 0 = true := by
    rw [duetText]
    exact occursAtB_zero _ _
  have F1 : firstOccFrom primaryMarker (duetText A B C opt) 0 = some 0 :=
    firstOccFrom_eq_some _ _ 0 0 le_rfl (Nat.zero_le _) occ0
      (fun k hk1 hk2 => absurd hk2 (by omega))
  have occM0 : occursAtB metaMarker (duetText A B C opt)
      ((primaryMarker ++ A).length) = true := by
    rw [e1]
    exact occursAtB_append_self _ _ _
  have hlen1 : (primaryMarker ++ A).length = primaryMarker.length + A.length :=
    List.length_append _ _
  have occM : occursAtB metaMarker (duetText A B C opt)
      (primaryMarker.length + A.length) = true := by
    rw [← hlen1]
    exact occM0
  have hMlt : primaryMarker.length + A.length < (duetText A B C opt).length :=
    occursAtB_lt_length _ _ _ (by decide) occM
  have F2 : firstOccFrom metaMarker (duetText A B C opt) (0 + primaryMarker.length) =
      some (primaryMarker.length + A.length) :=
    firstOccFrom_eq_some _ _ _ _ (by omega) (le_of_lt hMlt) occM
      (fun k _ hk2 => hM k hk2)
  have hm : primaryMatch (duetText A B C opt) =
      some (sliceStr (duetText A B C opt) (0 + primaryMarker.length)
        (primaryMarker.length + A.length)) :=
    matchBetween_eq primaryMarker metaMarker (duetText A B C opt) 0
      (primaryMarker.length + A.length) F1 F2
  have hslice : sliceStr (duetText A B C opt) primaryMarker.length
      (primaryMarker.length + A.length) = A := by
    rw [duetText]
    exact sliceStr_append _ _ _
  rw [hm, Nat.zero_add, hslice]

theorem duet_occ_meta (A B C : Str) (opt : Option Str) :
    occursAtB metaMarker (duetText A B C opt)
      (primaryMarker.length + A.length) = true := by
  have e1 : duetText A B C opt =
      (primaryMarker ++ A) ++
        (metaMarker ++ (B ++ (responseMarker ++ (C ++ duetTail opt)))) := by
    simp [duetText, List.append_assoc]
  have hlen : (primaryMarker ++ A).length = primaryMarker.length + A.length :=
    List.length_append _ _
  rw [← hlen, e1]
  exact occursAtB_append_self _ _ _

theorem duet_occ_response (A B C : Str) (opt : Option Str) :
    occursAtB responseMarker (duetText A B C opt)
      (primaryMarker.length + A.length + metaMarker.length + B.length) = true := by
  have e2 : duetText A B C opt =
      (((primaryMarker ++ A) ++ metaMarker) ++ B) ++
        (responseMarker ++ (C ++ duetTail opt)) := by
    simp [duetText, List.append_assoc]
  have hlen : ((((primaryMarker ++ A) ++ metaMarker) ++ B)).length =
      primaryMarker.length + A.length + metaMarker.length + B.length := by
    simp [List.length_append]
    omega
  rw [← hlen, e2]
  exact occursAtB_append_self _ _ _

theorem duet_occ_sketch (A B C D : Str) :
    occursAtB sketchMarker (duetText A B C (some D))
      (primaryMarker.length + A.length + metaMarker.length + B.length +
        responseMarker.length + C.length) = true := by
  have e4 : duetText A B C (some D) =
      (((((primaryMarker ++ A) ++ metaMarker) ++ B) ++ responseMarker) ++ C) ++
        (sketchMarker ++ (D ++ sketchCloseMarker)) := by
    simp [duetText, duetTail, List.append_assoc]
  have hlen : ((((((primaryMarker ++ A) ++ metaMarker) ++ B) ++ responseMarker) ++ C)).length =
      primaryMarker.length + A.length + metaMarker.length + B.length +
        responseMarker.length + C.length := by
    simp [List.length_append]
    omega
  rw [← hlen, e4]
  exact occursAtB_append_self _ _ _

theorem duet_occ_sketchClose (A B C D : Str) :
    occursAtB sketchCloseMarker (duetText A B C (some D))
      (primaryMarker.length + A.length + metaMarker.length + B.length +
        responseMarker.length + C.length + sketchMarker.length + D.length) = true := by
  have e6 : duetText A B C (some D) =
      (((((((primaryMarker ++ A) ++ metaMarker) ++ B) ++ responseMarker) ++ C) ++
        sketchMarker) ++ D) ++ sketchCloseMarker := by
    simp [duetText, duetTail, List.append_assoc]
  have hlen : ((((((((primaryMarker ++ A) ++ metaMarker) ++ B) ++ responseMarker) ++ C) ++
      sketchMarker) ++ D)).length =
      primaryMarker.length + A.length + metaMarker.length + B.length +
        responseMarker.length + C.length + sketchMarker.length + D.length := by
    simp [List.length_append]
    omega
  rw [← hlen, e6]
  exact occursAtB_append_end _ _

theorem duet_metaMatch_eq (A B C : Str) (opt : Option Str)
    (hM : ∀ k, k < primaryMarker.length + A.length →
      occursAtB metaMarker (duetText A B C opt) k = false)
    (hR : ∀ k, k < primaryMarker.length + A.length + metaMarker.length + B.length →
      occursAtB responseMarker (duetText A B C opt) k = false) :
    metaMatch (duetText A B C opt) = some B := by
  have occM := duet_occ_meta A B C opt
  have occR := duet_occ_response A B C opt
  have hMlt : primaryMarker.length + A.length < (duetText A B C opt).length :=
    occursAtB_lt_length _ _ _ (by decide) occM
  have hRlt : primaryMarker.length + A.length + metaMarker.length + B.length <
      (duetText A B C opt).length :=
    occursAtB_lt_length _ _ _ (by decide) occR
  have F2 : firstOccFrom metaMarker (duetText A B C opt) 0 =
      some (primaryMarker.length + A.length) :=
    firstOccFrom_eq_some _ _ 0 _ (Nat.zero_le _) (le_of_lt hMlt) occM
      (fun k _ hk2 => hM k hk2)
  have F3 : firstOccFrom responseMarker (duetText A B C opt)
      (primaryMarker.length + A.length + metaMarker.length) =
      some (primaryMarker.length + A.length + metaMarker.length + B.length) :=
    firstOccFrom_eq_some _ _ _ _ (by omega) (le_of_lt hRlt) occR
      (fun k _ hk2 => hR k hk2)
  have hm : metaMatch (duetText A B C opt) =
      some (sliceStr (duetText A B C opt)
        (primaryMarker.length + A.length + metaMarker.length)
        (primaryMarker.length + A.length + metaMarker.length + B.length)) :=
    matchBetween_eq metaMarker responseMarker (duetText A B C opt)
      (primaryMarker.length + A.length)
      (primaryMarker.length + A.length + metaMarker.length + B.length) F2 F3
  have e3 : duetText A B C opt =
      ((primaryMarker ++ A) ++ metaMarker) ++
        (B ++ (responseMarker ++ (C ++ duetTail opt))) := by
    simp [duetText, List.append_assoc]
  have hx3 : (((primaryMarker ++ A) ++ metaMarker)).length =
      primaryMarker.length + A.length + metaMarker.length := by
    simp [List.length_append]
    omega
  have hslice : sliceStr (duetText A B C opt)
      (primaryMarker.length + A.length + metaMarker.length)
      (primaryMarker.length + A.length + metaMarker.length + B.length) = B := by
    rw [← hx3, e3]
    exact sliceStr_append _ _ _
  rw [hm, hslice]

theorem duet_responseMatch_sketch (A B C D : Str)
    (hR : ∀ k, k < primaryMarker.length + A.length + metaMarker.length + B.length →
      occursAtB responseMarker (duetText A B C (some D)) k = false)
    (hS : ∀ k, k < primaryMarker.length + A.length + metaMarker.length + B.length +
        responseMarker.length + C.length →
      occursAtB sketchMarker (duetText A B C (some D)) k = false) :
    responseMatch (duetText A B C (some D)) = some C := by
  have occR := duet_occ_response A B C (some D)
  have occS := duet_occ_sketch A B C D
  have hRlt : primaryMarker.length + A.length + metaMarker.length + B.length <
      (duetText A B C (some D)).length :=
    occursAtB_lt_length _ _ _ (by decide) occR
  have hSlt : primaryMarker.length + A.length + metaMarker.length + B.length +
      responseMarker.length + C.length < (duetText A B C (some D)).length :=
    occursAtB_lt_length _ _ _ (by decide) occS
  have F3 : firstOccFrom responseMarker (duetText A B C (some D)) 0 =
      some (primaryMarker.length + A.length + metaMarker.length + B.length) :=
    firstOccFrom_eq_some _ _ 0 _ (Nat.zero_le _) (le_of_lt hRlt) occR
      (fun k _ hk2 => hR k hk2)
  have F4 : firstOccFrom sketchMarker (duetText A B C (some D))
      (primaryMarker.length + A.length + metaMarker.length + B.length +
        responseMarker.length) =
      some (primaryMarker.length + A.length + metaMarker.length + B.length +
        responseMarker.length + C.length) :=
    firstOccFrom_eq_some _ _ _ _ (by omega) (le_of_lt hSlt) occS
      (fun k _ hk2 => hS k hk2)
  have hm : responseMatch (duetText A B C (some D)) =
      some (sliceStr (duetText A B C (some D))
        (primaryMarker.length + A.length + metaMarker.length + B.length +
          responseMarker.length)
        (primaryMarker.length + A.length + metaMarker.length + B.length +
          responseMarker.length + C.length)) :=
    matchToEndOr_eq responseMarker sketchMarker (duetText A B C (some D))
      (primaryMarker.length + A.length + metaMarker.length + B.length)
      (primaryMarker.length + A.length + metaMarker.length + B.length +
        responseMarker.length + C.length) F3 F4
  have e5 : duetText A B C (some D) =
      ((((primaryMarker ++ A) ++ metaMarker) ++ B) ++ responseMarker) ++
        (C ++ duetTail (some D)) := by
    simp [duetText, List.append_assoc]
  have hx5 : (((((primaryMarker ++ A) ++ metaMarker) ++ B) ++ responseMarker)).length =
      primaryMarker.length + A.length + metaMarker.length + B.length +
        responseMarker.length := by
    simp [List.length_append]
    omega
  have hslice : sliceStr (duetText A B C (some D))
      (primaryMarker.length + A.length + metaMarker.length + B.length +
        responseMarker.length)
      (primaryMarker.length + A.length + metaMarker.length + B.length +
        responseMarker.length + C.length) = C := by
    rw [← hx5, e5]
    exact sliceStr_append _ _ _
  rw [hm, hslice]

theorem duet_responseMatch_plain (A B C : Str)
    (hR : ∀ k, k < primaryMarker.length + A.length + metaMarker.length + B.length →
      occursAtB responseMarker (duetText A B C none) k = false)
    (hS : ∀ k, k ≤ (duetText A B C none).length →
      occursAtB sketchMarker (duetText A B C none) k = false) :
    responseMatch (duetText A B C none) = some C := by
  have occR := duet_occ_response A B C none
  have hRlt : primaryMarker.length + A.length + metaMarker.length + B.length <
      (duetText A B C none).length :=
    occursAtB_lt_length _ _ _ (by decide) occR
  have F3 : firstOccFrom responseMarker (duetText A B C none) 0 =
      some (primaryMarker.length + A.length + metaMarker.length + B.length) :=
    firstOccFrom_eq_some _ _ 0 _ (Nat.zero_le _) (le_of_lt hRlt) occR
      (fun k _ hk2 => hR k hk2)
  have F4 : firstOccFrom sketchMarker (duetText A B C none)
      (primaryMarker.length + A.length + metaMarker.length + B.length +
        responseMarker.length) = none :=
    firstOccFrom_eq_none _ _ _ (by decide) (fun k _ hk2 => hS k hk2)
  have hm : responseMatch (duetText A B C none) =
      some ((duetText A B C none).drop
        (primaryMarker.length + A.length + metaMarker.length + B.length +
          responseMarker.length)) :=
    matchToEndOr_toEnd responseMarker sketchMarker (duetText A B C none)
      (primaryMarker.length + A.length + metaMarker.length + B.length) F3 F4
  have e5 : duetText A B C none =
      ((((primaryMarker ++ A) ++ metaMarker) ++ B) ++ responseMarker) ++
        (C ++ duetTail none) := by
    simp [duetText, List.append_assoc]
  have hx5 : (((((primaryMarker ++ A) ++ metaMarker) ++ B) ++ responseMarker)).length =
      primaryMarker.length + A.length + metaMarker.length + B.length +
        responseMarker.length := by
    simp [List.length_append]
    omega
  have hdrop : (duetText A B C none).drop
      (primaryMarker.length + A.length + metaMarker.length + B.length +
        responseMarker.length) = C := by
    rw [← hx5, e5, List.drop_left]
    simp [duetTail]
  rw [hm, hdrop]

theorem duet_sketchMatch_some (A B C D : Str)
    (hS : ∀ k, k < primaryMarker.length + A.length + metaMarker.length + B.length +
        responseMarker.length + C.length →
      occursAtB sketchMarker (duetText A B C (some D)) k = false)
    (hSC : ∀ k, k < primaryMarker.length + A.length + metaMarker.length + B.length +
        responseMarker.length + C.length + sketchMarker.length + D.length →
      occursAtB sketchCloseMarker (duetText A B C (some D)) k = false) :
    sketchMatch (duetText A B C (some D)) = some D := by
  have occS := duet_occ_sketch A B C D
  have occSC := duet_occ_sketchClose A B C D
  have hSlt : primaryMarker.length + A.length + metaMarker.length + B.length +
      responseMarker.length + C.length < (duetText A B C (some D)).length :=
    occursAtB_lt_length _ _ _ (by decide) occS
  have hSClt : primaryMarker.length + A.length + metaMarker.length + B.length +
      responseMarker.length + C.length + sketchMarker.length + D.length <
      (duetText A B C (some D)).length :=
    occursAtB_lt_length _ _ _ (by decide) occSC
  have F5 : firstOccFrom sketchMarker (duetText A B C (some D)) 0 =
      some (primaryMarker.length + A.length + metaMarker.length + B.length +
        responseMarker.length + C.length) :=
    firstOccFrom_eq_some _ _ 0 _ (Nat.zero_le _) (le_of_lt hSlt) occS
      (fun k _ hk2 => hS k hk2)
  have F6 : firstOccFrom sketchCloseMarker (duetText A B C (some D))
      (primaryMarker.length + A.length + metaMarker.length + B.length +
        responseMarker.length + C.length + sketchMarker.length) =
      some (primaryMarker.length + A.length + metaMarker.length + B.length +
        responseMarker.length + C.length + sketchMarker.length + D.length) :=
    firstOccFrom_eq_some _ _ _ _ (by omega) (le_of_lt hSClt) occSC
      (fun k _ hk2 => hSC k hk2)
  have hm : sketchMatch (duetText A B C (some D)) =
      some (sliceStr (duetText A B C (some D))
        (primaryMarker.length + A.length + metaMarker.length + B.length +
          responseMarker.length + C.length + sketchMarker.length)
        (primaryMarker.length + A.length + metaMarker.length + B.length +
          responseMarker.length + C.length + sketchMarker.length + D.length)) :=
    matchBetween_eq sketchMarker sketchCloseMarker (duetText A B C (some D))
      (primaryMarker.length + A.length + metaMarker.length + B.length +
        responseMarker.length + C.length)
      (primaryMarker.length + A.length + metaMarker.length + B.length +
        responseMarker.length + C.length + sketchMarker.length + D.length) F5 F6
  have e7 : duetText A B C (some D) =
      ((((((primaryMarker ++ A) ++ metaMarker) ++ B) ++ responseMarker) ++ C) ++
        sketchMarker) ++ (D ++ sketchCloseMarker) := by
    simp [duetText, duetTail, List.append_assoc]
  have hx7 : (((((((primaryMarker ++ A) ++ metaMarker) ++ B) ++ responseMarker) ++ C) ++
      sketchMarker)).length =
      primaryMarker.length + A.length + metaMarker.length + B.length +
        responseMarker.length + C.length + sketchMarker.length := by
    simp [List.length_append]
    omega
  have hslice : sliceStr (duetText A B C (some D))
      (primaryMarker.length + A.length + metaMarker.length + B.length +
        responseMarker.length + C.length + sketchMarker.length)
      (primaryMarker.length + A.length + metaMarker.length + B.length +
        responseMarker.length + C.length + sketchMarker.length + D.length) = D := by
    rw [← hx7, e7]
    exact sliceStr_append _ _ _
  rw [hm, hslice]

theorem duet_sketchMatch_none (A B C : Str)
    (hS : ∀ k, k ≤ (duetText A B C none).length →
      occursAtB sketchMarker (duetText A B C none) k = false) :
    sketchMatch (duetText A B C none) = none := by
  have F5 : firstOccFrom sketchMarker (duetText A B C none) 0 = none :=
    firstOccFrom_eq_none _ _ _ (by decide) (fun k _ hk2 => hS k hk2)
  exact matchBetween_none_open _ _ _ F5

theorem occursAtB_within (pat z s : Str) (i : Nat) (hpat : pat ≠ [])
    (hz : z <:+: s) (h : occursAtB pat z i = true) :
    ∃ j, occursAtB pat s j = true := by
  obtain ⟨v, w, hvw⟩ := hz
  have hi : i ≤ z.length := le_of_lt (occursAtB_lt_length pat z i hpat h)
  have h1 : occursAtB pat (z ++ w) i = true := occursAtB_append_left z w pat i hi h
  have h2 : occursAtB pat (v ++ (z ++ w)) (v.length + i) = true :=
    occursAtB_shift v (z ++ w) pat i h1
  have hvw2 : v ++ (z ++ w) = s := by
    rw [← hvw]
    simp [List.append_assoc]
  exact ⟨v.length + i, hvw2 ▸ h2⟩

theorem duet_final_no_sketch_marker (A B C : Str) (opt : Option Str)
    (hS : ∀ k, k < primaryMarker.length + A.length + metaMarker.length + B.length +
        responseMarker.length + C.length →
      occursAtB sketchMarker (duetText A B C opt) k = false) :
    containsSubB sketchMarker (jsTrim C) = false := by
  cases hcontain : containsSubB sketchMarker (jsTrim C) with
  | false => rfl
  | true =>
    exfalso
    rw [containsSubB] at hcontain
    obtain ⟨j0, hj0⟩ := Option.isSome_iff_exists.mp hcontain
    have hocc0 : occursAtB sketchMarker (jsTrim C) j0 = true :=
      firstOccFrom_some_sound _ _ _ _ hj0
    obtain ⟨j1, hj1⟩ := occursAtB_within sketchMarker (jsTrim C) C j0 (by decide)
      (jsTrim_within C) hocc0
    have hj1lt : j1 < C.length := occursAtB_lt_length _ _ _ (by decide) hj1
    have e5 : duetText A B C opt =
        ((((primaryMarker ++ A) ++ metaMarker) ++ B) ++ responseMarker) ++
          (C ++ duetTail opt) := by
      simp [duetText, List.append_assoc]
    have hx5 : (((((primaryMarker ++ A) ++ metaMarker) ++ B) ++ responseMarker)).length =
        primaryMarker.length + A.length + metaMarker.length + B.length +
          responseMarker.length := by
      simp [List.length_append]
      omega
    have h1 : occursAtB sketchMarker (C ++ duetTail opt) j1 = true :=
      occursAtB_append_left C (duetTail opt) sketchMarker j1 (le_of_lt hj1lt) hj1
    have h2 : occursAtB sketchMarker (duetText A B C opt)
        (primaryMarker.length + A.length + metaMarker.length + B.length +
          responseMarker.length + j1) = true := by
      rw [← hx5, e5]
      exact occursAtB_shift _ _ _ _ h1
    have h3 := hS (primaryMarker.length + A.length + metaMarker.length + B.length +
      responseMarker.length + j1) (by omega)
    rw [h3] at h2
    exact Bool.false_ne_true h2

/-- Claim C2: for every well-formed completion text of the shape
PRIMARY-marker A META-marker B RESPONSE-marker C, optionally followed by
a SKETCH pair around D, where the markers written in the scaffold are
the first occurrences of their patterns, parsing yields primaryThought
trim A, metaThought trim B and finalResponse trim C verbatim, the
extracted sketch directive equals trim D, and finalResponse does not
contain the SKETCH marker. -/
theorem parse_wellformed_exact (A B C : Str) (opt : Option Str)
    (hM : ∀ k, k < primaryMarker.length + A.length →
      occursAtB metaMarker (duetText A B C opt) k = false)
    (hR : ∀ k, k < primaryMarker.length + A.length + metaMarker.length + B.length →
      occursAtB responseMarker (duetText A B C opt) k = false)
    (hS : match opt with
      | some D =>
        (∀ k, k < primaryMarker.length + A.length + metaMarker.length + B.length +
            responseMarker.length + C.length →
          occursAtB sketchMarker (duetText A B C (some D)) k = false) ∧
        (∀ k, k < primaryMarker.length + A.length + metaMarker.length + B.length +
            responseMarker.length + C.length + sketchMarker.length + D.length →
          occursAtB sketchCloseMarker (duetText A B C (some D)) k = false)
      | none => ∀ k, k ≤ (duetText A B C none).length →
          occursAtB sketchMarker (duetText A B C none) k = false) :
    (parseClone (duetText A B C opt)).primaryThought = jsTrim A ∧
    (parseClone (duetText A B C opt)).metaThought = jsTrim B ∧
    (parseClone (duetText A B C opt)).finalResponse = jsTrim C ∧
    (parseClone (duetText A B C opt)).sketchDirective = opt.map jsTrim ∧
    containsSubB sketchMarker (parseClone (duetText A B C opt)).finalResponse = false := by
  cases opt with
  | some D =>
    obtain ⟨hS1, hS2⟩ := hS
    have hp := duet_primaryMatch_eq A B C (some D) hM
    have hmm := duet_metaMatch_eq A B C (some D) hM hR
    have hr := duet_responseMatch_sketch A B C D hR hS1
    have hsk := duet_sketchMatch_some A B C D hS1 hS2
    have hfin : (parseClone (duetText A B C (some D))).finalResponse = jsTrim C := by
      simp [parseClone, hr]
    refine ⟨by simp [parseClone, hp], by simp [parseClone, hmm], hfin,
      by simp [parseClone, hsk], ?_⟩
    rw [hfin]
    exact duet_final_no_sketch_marker A B C (some D) hS1
  | none =>
    have hlen : primaryMarker.length + A.length + metaMarker.length + B.length +
        responseMarker.length + C.length = (duetText A B C none).length := by
      simp [duetText, duetTail, List.length_append]
      omega
    have hS1 : ∀ k, k < primaryMarker.length + A.length + metaMarker.length + B.length +
        responseMarker.length + C.length →
        occursAtB sketchMarker (duetText A B C none) k = false :=
      fun k hk => hS k (by omega)
    have hp := duet_primaryMatch_eq A B C none hM
    have hmm := duet_metaMatch_eq A B C none hM hR
    have hr := duet_responseMatch_plain A B C hR hS
    have hsk := duet_sketchMatch_none A B C hS
    have hfin : (parseClone (duetText A B C none)).finalResponse = jsTrim C := by
      simp [parseClone, hr]
    refine ⟨by simp [parseClone, hp], by simp [parseClone, hmm], hfin,
      by simp [parseClone, hsk], ?_⟩
    rw [hfin]
    exact duet_final_no_sketch_marker A B C none hS1

/-- Claim C2 witness at the four single-letter streams with a sketch
pair. -/
theorem parse_wellformed_exact_witness :
    (parseClone (duetText "A".toList "B".toList "C".toList
      (some "D".toList))).primaryThought = jsTrim "A".toList ∧
    (parseClone (duetText "A".toList "B".toList "C".toList
      (some "D".toList))).metaThought = jsTrim "B".toList ∧
    (parseClone (duetText "A".toList "B".toList "C".toList
      (some "D".toList))).finalResponse = jsTrim "C".toList ∧
    (parseClone (duetText "A".toList "B".toList "C".toList
      (some "D".toList))).sketchDirective = (some "D".toList).map jsTrim ∧
    containsSubB sketchMarker (parseClone (duetText "A".toList "B".toList "C".toList
      (some "D".toList))).finalResponse = false :=
  parse_wellformed_exact "A".toList "B".toList "C".toList (some "D".toList)
    (by decide) (by decide) (by decide)
